import Mathlib

/-!
Shallow embedding of the reverse-geocoding engine
(`libs-carto/geocoding/src/geocoding/RevGeocoder.cpp`) and proofs of its
specified properties.

Modelling conventions:
* C++ `double`/`float` arithmetic is idealized over `ℚ`; machine integers are
  `ℕ` with explicit `% 2 ^ w` where overflow matters.
* External collaborators that are part of the repository but not under `src/`
  (QuadIndex, AddressInterpolator, FeatureReader, `Address::loadFromDB`,
  `cglib`, `boost::lexical_cast`, the sqlite store, the LRU caches) are
  modelled from the spec; each such definition says so in its doc comment.
* The engine's mutable fields guarded by `_mutex` become an explicit state
  record `GeocState`; every public operation is a pure function on it.
-/

namespace Carto

/-- A 2-d geographic point or vector, `(lng, lat)`; `cglib::vec2<double>`
idealized over `ℚ`. -/
abbrev Vec2 := ℚ × ℚ

/-- Axis-aligned bounding box, `cglib::bbox2<double>`. -/
structure BBox where
  min : Vec2
  max : Vec2
deriving DecidableEq

/-- A single geometric shape as its list of vertices. Modelled from the spec:
the concrete `Geometry` class hierarchy is not under `src/`; the engine only
ever builds, stores, translates and measures distances to geometries, so a
vertex list is a sufficient representation. -/
abbrev Geometry := List Vec2

/-- `MultiGeometry`: one or more shapes. -/
abbrev MultiGeometry := List Geometry

/-- A decoded feature optionally carrying a geometry. Modelled from the spec
(§4.3): the FeatureReader decoder is not under `src/`. -/
structure Feature where
  geometry : Option Geometry
deriving DecidableEq

/-- Apply a coordinate conversion to every vertex of a feature's geometry. -/
def Feature.mapPoints (f : Vec2 → Vec2) (ft : Feature) : Feature :=
  ⟨ft.geometry.map fun g => g.map f⟩

/-- `Address::Type`. Modelled from the spec (§3): a closed enumeration of
address categories; `Address.h` is not under `src/`. -/
inductive AddressType where
  | country
  | region
  | county
  | locality
  | neighbourhood
  | street
  | postcode
  | houseNumber
deriving DecidableEq, Repr

/-- A resolved address. Modelled from the spec (§3): structured fields plus an
optional geometry; `Address.h` is not under `src/`. -/
structure Address where
  type : AddressType
  components : List String
  text : String
  geometry : Option MultiGeometry
deriving DecidableEq

/-- One row of the `entities` table of a store
(`entities(id, quadindex, features, housenumbers)`, spec §6), with the
`features` blob already decoded to its feature list (the binary decoder is not
under `src/`) and the row's address type exposed for the
`Address::buildTypeFilter` restriction. -/
structure Entity where
  id : ℕ
  quadindex : ℕ
  type : AddressType
  features : List Feature
  housenumbers : Option String
deriving DecidableEq

/-- A read-only sqlite store. Modelled from the spec (§6): `metadata` rows and
`entities` rows; `loadAddress` models `Address::loadFromDB` (not under
`src/`, spec §4.6 step 4): it loads the address record for a (packed) entity
id in the given language, translating geometry by the given database origin. -/
structure Store where
  metadata : List (String × String)
  entities : List Entity
  loadAddress : ℕ → String → Vec2 → Address

/-- One imported database of the registry (`RevGeocoder::Database`). -/
structure Database where
  id : String
  store : Store
  bounds : Option BBox
  origin : Vec2

/-- A decoded-but-not-yet-ranked match: packed entity id plus geometry
(`QuadIndex::GeometryInfo`). -/
abbrev GeomInfo := ℕ × MultiGeometry

/-- Key of the geometry-info (query) cache. The code keys this cache by the
string `database.id ++ "_" ++ sql` where `sql` is the exact SELECT text built
in `RevGeocoder::findGeometryInfo` from the quad indices and the enabled type
filters; since database ids (`"db" ++ ordinal`) contain no underscore and the
SELECT text is an injective rendering of the pair (quad indices, filters),
that string is an injective encoding of this structured key, which we use
directly. -/
abbrev QueryKey := String × List ℕ × List AddressType

/-- The geometry-info cache (`_queryCache`). Modelled from the spec (§4.2):
the LRU cache class is not under `src/`; it is modelled as an association
list without capacity eviction — eviction only removes entries, and the
transparency theorems show entries never change results, so capacity is
irrelevant to every claim. -/
abbrev QueryCache := List (QueryKey × List GeomInfo)

/-- Key of the address cache: the code uses
`database.id ++ "_" ++ lexical_cast<string>(packedEntityId)`, an injective
encoding of this pair (ids contain no underscore). -/
abbrev AddrKey := String × ℕ

/-- The address cache (`_addressCache`), modelled like `QueryCache`. -/
abbrev AddrCache := List (AddrKey × Address)

/-- Association-list lookup used by both cache models (`read`). -/
def lookupCache {α β : Type} [DecidableEq α] : List (α × β) → α → Option β
  | [], _ => none
  | (k, v) :: rest, key => if k = key then some v else lookupCache rest key

/-- The engine's mutable state (the fields of `RevGeocoder` guarded by
`_mutex`). -/
structure GeocState where
  databases : List Database
  radius : ℚ
  language : String
  enabledFilters : List AddressType
  addressCache : AddrCache
  queryCache : QueryCache
  entityQueryCounter : ℕ
  previousEntityQueryCounter : ℕ

/-- Bundle of the deterministic external collaborators a query drives.
Modelled from the spec: none of these are under `src/`.
* `wgs84Meters` (`ProjUtils`): local meters-per-degree scale factors at a
  point, anisotropic (§4.6 step 1).
* `converter`: the `PointConverter` the QuadIndex hands to its lookup
  callback (§4.5). It must be query-independent for the code's own query
  cache to be sound, so it is modelled as a fixed conversion.
* `probes`: which batches of quad cell keys the QuadIndex resolves for a
  query `(lng, lat, radius)` (§4.5, candidate-batching strategy).
* `distTo`: the precise distance from a query point to a decoded
  multi-geometry (§4.5).
* `interpolate`: `AddressInterpolator::enumerateAddresses` (§4.4): expands a
  house-number specification plus decoded features into ordered
  `(label, featureSet)` pairs. -/
structure ExternalModel where
  wgs84Meters : Vec2 → Vec2
  converter : Vec2 → Vec2
  probes : ℚ → ℚ → ℚ → List (List ℕ)
  distTo : ℚ → ℚ → MultiGeometry → ℚ
  interpolate : String → List Feature → List (String × List Feature)

/-- Componentwise clamp of `x` into `[lo, hi]`. -/
def clampQ (lo hi x : ℚ) : ℚ :=
  if x < lo then lo else if hi < x then hi else x

/-- `cglib::bbox2::nearest_point`: the point of the box nearest to `p`.
Modelled from the spec (§4.6 step 1, "compute the nearest point on that
envelope to the query point"); for an axis-aligned box this is the
componentwise clamp. -/
def BBox.nearestPoint (b : BBox) (p : Vec2) : Vec2 :=
  (clampQ b.min.1 b.max.1 p.1, clampQ b.min.2 b.max.2 p.2)

/-- Squared anisotropically scaled metric distance from `p` to `q`:
the square of `cglib::length(vec2(diff(0) * scale(0), diff(1) * scale(1)))`
from `RevGeocoder::findAddresses` lines 72-73. -/
def scaledDistSq (scale p q : Vec2) : ℚ :=
  ((q.1 - p.1) * scale.1) ^ 2 + ((q.2 - p.2) * scale.2) ^ 2

/-- The bounding prefilter test of `RevGeocoder::findAddresses` lines 70-76:
skip the database iff `dist > _radius` where `dist` is the scaled metric
distance from the query point `p` to the nearest point of the bounds `b`.
Since `dist = √s` with `s = scaledDistSq ≥ 0` is irrational in general, the
comparison `√s > radius` is embedded by its exact rational equivalent
`radius < 0 ∨ radius² < s`. -/
def prefilterSkips (b : BBox) (scale p : Vec2) (radius : ℚ) : Bool :=
  decide (radius < 0) ||
    decide (radius * radius < scaledDistSq scale p (b.nearestPoint p))

/-- The per-result ranking of `RevGeocoder::findAddresses` lines 84-85:
`rank = 1.0f - distance / _radius`, kept iff `rank > 0`. IEEE semantics at
`radius = 0`: `d / 0` is `+∞` for `d > 0` and `NaN` for `d = 0`, so for the
nonnegative distances the quad index reports the `rank > 0` test is false;
this is embedded as `none`. For `radius ≠ 0` the float computation is
idealized over `ℚ`. -/
def rankOf (d radius : ℚ) : Option ℚ :=
  if radius = 0 then none
  else if 0 < 1 - d / radius then some (1 - d / radius) else none

/-- The packed 64-bit entity id of `RevGeocoder::findGeometryInfo` line 130:
`(uint64(k) << 32) | entityId` in `uint64` arithmetic, for 1-based
interpolation index `k` and 32-bit row id `r`. -/
def packEntityId (k r : ℕ) : ℕ :=
  ((k <<< 32) ||| r) % 2 ^ 64

/-- Row id carried by a packed entity id. Modelled from the spec (§3): the
low 32 bits carry the row id; the decoding side lives in
`Address::loadFromDB`, not under `src/`. -/
def packedRowId (p : ℕ) : ℕ := p % 2 ^ 32

/-- Interpolation index carried by a packed entity id. Modelled from the
spec (§3): the high 32 bits carry the 1-based interpolation index. -/
def packedIndex (p : ℕ) : ℕ := p / 2 ^ 32

/-- Geometries of the features that carry one
(`if (feature.getGeometry()) geometries.push_back(...)`,
`RevGeocoder::findGeometryInfo` lines 131-136 / 141-146). -/
def collectGeometries (feats : List Feature) : MultiGeometry :=
  feats.filterMap Feature.geometry

/-- The geometry infos one `entities` row contributes
(`RevGeocoder::findGeometryInfo` lines 119-148): coordinates are converted by
`converter(database.origin + pos)`; a row with a house-number specification
is expanded by the interpolator into one info per interpolated address under
the packed id scheme, any other row yields a single info under its raw
(32-bit) row id. -/
def entityRowInfos (ext : ExternalModel) (db : Database) (e : Entity) :
    List GeomInfo :=
  let conv := fun pos : Vec2 => ext.converter (db.origin + pos)
  let feats := e.features.map (Feature.mapPoints conv)
  match e.housenumbers with
  | some hn =>
    let results := ext.interpolate hn feats
    (List.range results.length).map fun i =>
      (packEntityId (i + 1) (e.id % 2 ^ 32),
        collectGeometries (results.getD i ("", [])).2)
  | none => [(e.id % 2 ^ 32, collectGeometries feats)]

/-- Row selection of the SELECT in `RevGeocoder::findGeometryInfo` lines
102-109: `quadindex in (...)`, further restricted by the enabled type
filters when that set is non-empty. -/
def rowMatches (filters : List AddressType) (qis : List ℕ) (e : Entity) :
    Bool :=
  decide (e.quadindex ∈ qis) &&
    (filters.isEmpty || decide (e.type ∈ filters))

/-- The geometry infos a store query for one batch of quad indices produces
(the cache-miss path of `RevGeocoder::findGeometryInfo`). -/
def freshInfos (ext : ExternalModel) (filters : List AddressType)
    (db : Database) (qis : List ℕ) : List GeomInfo :=
  ((db.store.entities.filter (rowMatches filters qis)).map
    (entityRowInfos ext db)).flatten

/-- `RevGeocoder::findGeometryInfo` (lines 101-154): resolve one batch of
quad indices through the query cache, issuing a store query and bumping the
entity-query counter on miss. -/
def RevGeocoder.findGeometryInfo (ext : ExternalModel)
    (filters : List AddressType) (db : Database) (qis : List ℕ)
    (qc : QueryCache) (counter : ℕ) : List GeomInfo × QueryCache × ℕ :=
  match lookupCache qc ((db.id, qis, filters) : QueryKey) with
  | some infos => (infos, qc, counter)
  | none =>
    (freshInfos ext filters db qis,
      (((db.id, qis, filters) : QueryKey), freshInfos ext filters db qis)
        :: qc,
      counter + 1)

/-- Resolve a sequence of quad-index probe batches, threading the query cache
and counter (the QuadIndex invoking its lookup callback per batch, spec
§4.5). -/
def runBatches (ext : ExternalModel) (filters : List AddressType)
    (db : Database) : List (List ℕ) → QueryCache → ℕ →
    List GeomInfo × QueryCache × ℕ
  | [], qc, counter => ([], qc, counter)
  | qis :: rest, qc, counter =>
    let r1 := RevGeocoder.findGeometryInfo ext filters db qis qc counter
    let r2 := runBatches ext filters db rest r1.2.1 r1.2.2
    (r1.1 ++ r2.1, r2.2)

/-- `QuadIndex::findGeometries(lng, lat, radius)`. Modelled from the spec
(§4.5): the QuadIndex is not under `src/`; it resolves its probe batches
through the engine's lookup callback and returns every candidate within
`radius` of the query point, annotated with its (nonnegative) distance. -/
def QuadIndex.findGeometries (ext : ExternalModel)
    (filters : List AddressType) (db : Database) (lng lat radius : ℚ)
    (qc : QueryCache) (counter : ℕ) : List (ℕ × ℚ) × QueryCache × ℕ :=
  let r := runBatches ext filters db (ext.probes lng lat radius) qc counter
  ((r.1.map fun gi => (gi.1, ext.distTo lng lat gi.2)).filter
      (fun p => decide (0 ≤ p.2) && decide (p.2 ≤ radius)),
    r.2)

/-- The ranking / address-resolution loop of `RevGeocoder::findAddresses`
lines 83-96: each `(entityId, distance)` quad-index result with positive rank
is resolved through the address cache, falling back to
`Address::loadFromDB` and populating the cache on miss. -/
def resolveResults (db : Database) (language : String) (radius : ℚ) :
    List (ℕ × ℚ) → AddrCache → List (Address × ℚ) × AddrCache
  | [], ac => ([], ac)
  | (eid, d) :: rest, ac =>
    match rankOf d radius with
    | none => resolveResults db language radius rest ac
    | some rank =>
      match lookupCache ac (db.id, eid) with
      | some addr =>
        let r := resolveResults db language radius rest ac
        ((addr, rank) :: r.1, r.2)
      | none =>
        let addr := db.store.loadAddress eid language db.origin
        let r := resolveResults db language radius rest (((db.id, eid), addr) :: ac)
        ((addr, rank) :: r.1, r.2)

/-- The per-database body of the loop of `RevGeocoder::findAddresses` lines
67-97, after the bounding prefilter: record the counter in
`_previousEntityQueryCounter`, run the quad-index query, rank and resolve. -/
def queryDatabase (ext : ExternalModel) (radius : ℚ) (language : String)
    (filters : List AddressType) (lng lat : ℚ) (db : Database)
    (ac : AddrCache) (qc : QueryCache) (counter : ℕ) :
    List (Address × ℚ) × AddrCache × QueryCache × ℕ × ℕ :=
  let prev := counter
  let g := QuadIndex.findGeometries ext filters db lng lat radius qc counter
  let r := resolveResults db language radius g.1 ac
  (r.1, r.2, g.2.1, g.2.2, prev)

/-- One iteration of the database loop of `RevGeocoder::findAddresses`:
apply the bounding prefilter (lines 68-77), then query. The last component
is `_previousEntityQueryCounter`, which is only written after the prefilter
passes (line 79). -/
def processDatabase (ext : ExternalModel) (radius : ℚ) (language : String)
    (filters : List AddressType) (lng lat : ℚ) (db : Database)
    (ac : AddrCache) (qc : QueryCache) (counter prev : ℕ) :
    List (Address × ℚ) × AddrCache × QueryCache × ℕ × ℕ :=
  match db.bounds with
  | some b =>
    if prefilterSkips b (ext.wgs84Meters (lng, lat)) (lng, lat) radius then
      ([], ac, qc, counter, prev)
    else
      queryDatabase ext radius language filters lng lat db ac qc counter
  | none => queryDatabase ext radius language filters lng lat db ac qc counter

/-- The database loop of `RevGeocoder::findAddresses` lines 66-97,
concatenating per-database results in registration order. -/
def processDatabases (ext : ExternalModel) (radius : ℚ) (language : String)
    (filters : List AddressType) (lng lat : ℚ) :
    List Database → AddrCache → QueryCache → ℕ → ℕ →
    List (Address × ℚ) × AddrCache × QueryCache × ℕ × ℕ
  | [], ac, qc, counter, prev => ([], ac, qc, counter, prev)
  | db :: rest, ac, qc, counter, prev =>
    let r1 := processDatabase ext radius language filters lng lat db ac qc
      counter prev
    let r2 := processDatabases ext radius language filters lng lat rest
      r1.2.1 r1.2.2.1 r1.2.2.2.1 r1.2.2.2.2
    (r1.1 ++ r2.1, r2.2)

/-- `RevGeocoder::findAddresses(lng, lat)` (lines 63-99): the full federated
query, returning the ranked address list and the engine state after the
call. -/
def RevGeocoder.findAddresses (ext : ExternalModel) (s : GeocState)
    (lng lat : ℚ) : List (Address × ℚ) × GeocState :=
  let r := processDatabases ext s.radius s.language s.enabledFilters lng lat
    s.databases s.addressCache s.queryCache s.entityQueryCounter
    s.previousEntityQueryCounter
  (r.1,
    { s with
      addressCache := r.2.1
      queryCache := r.2.2.1
      entityQueryCounter := r.2.2.2.1
      previousEntityQueryCounter := r.2.2.2.2 })

/-- Split a character list at every occurrence of `sep`, keeping empty
tokens (`acc` holds the current token, reversed). -/
def splitOnCharAux (sep : Char) : List Char → List Char → List (List Char)
  | [], acc => [acc.reverse]
  | c :: cs, acc =>
    if c = sep then acc.reverse :: splitOnCharAux sep cs []
    else splitOnCharAux sep cs (c :: acc)

/-- `boost::split(_, value, is_any_of(","), token_compress_off)`
(`RevGeocoder::getOrigin` / `getBounds`). Modelled from the spec: the boost
algorithm is not under `src/`; it splits a metadata value at every comma,
keeping empty tokens. -/
def splitFields (value : String) : List String :=
  (splitOnCharAux ',' value.data []).map String.mk

/-- Value of a decimal digit character, `none` otherwise. -/
def digitVal (c : Char) : Option ℕ :=
  if c.isDigit then some (c.toNat - 48) else none

/-- Accumulate a digit run left to right. -/
def parseDigitsAux : List Char → ℕ → Option ℕ
  | [], acc => some acc
  | c :: cs, acc =>
    match digitVal c with
    | some d => parseDigitsAux cs (acc * 10 + d)
    | none => none

/-- Parse a non-empty all-digit character run. -/
def parseNatDigits (cs : List Char) : Option ℕ :=
  match cs with
  | [] => none
  | _ => parseDigitsAux cs 0

/-- Parse an unsigned decimal number, optionally with a fractional part. -/
def parseUnsigned (cs : List Char) : Option ℚ :=
  match splitOnCharAux '.' cs [] with
  | [ip] => (parseNatDigits ip).map fun n => (n : ℚ)
  | [ip, fp] =>
    match parseNatDigits ip, parseNatDigits fp with
    | some i, some f => some ((i : ℚ) + (f : ℚ) / 10 ^ fp.length)
    | _, _ => none
  | _ => none

/-- `boost::lexical_cast<double>`. Modelled from the spec (§4.1, "each a
comma-separated numeric tuple", "non-numeric is a fatal import error"): the
cast is not under `src/`; it parses a decimal number (optional sign, digits,
optional fractional digits), failing on empty or non-numeric input, and is
idealized to exact rationals. -/
def parseNum (str : String) : Option ℚ :=
  match str.data with
  | '-' :: rest => (parseUnsigned rest).map fun q => -q
  | _ => parseUnsigned str.data

/-- Numeric value of field `i` of a comma-separated metadata value:
`boost::lexical_cast<double>(fields.at(i))`. `none` when the field does not
exist (`std::out_of_range` from `.at`) or is not numeric (a bad lexical
cast); `import` catches neither C++ exception, so the two failure modes are
indistinguishable to every caller and are modelled uniformly. -/
def fieldNum (value : String) (i : ℕ) : Option ℚ :=
  ((splitFields value).get? i).bind parseNum

/-- Parsing of an `origin` metadata value
(`RevGeocoder::getOrigin` lines 159-163): split at commas, read fields 0 and
1 as numbers; any further fields are ignored, exactly as in the code. C++
exceptions become `Except.error`. -/
def parseOriginValue (value : String) : Except String Vec2 :=
  match fieldNum value 0, fieldNum value 1 with
  | some x, some y => Except.ok (x, y)
  | _, _ => Except.error "origin metadata malformed"

/-- Parsing of a `bounds` metadata value
(`RevGeocoder::getBounds` lines 171-177): split at commas, read fields 0-3 as
numbers forming min and max corners; any further fields are ignored, exactly
as in the code. -/
def parseBoundsValue (value : String) : Except String BBox :=
  match fieldNum value 0, fieldNum value 1, fieldNum value 2,
      fieldNum value 3 with
  | some x0, some y0, some x1, some y1 => Except.ok ⟨(x0, y0), (x1, y1)⟩
  | _, _, _, _ => Except.error "bounds metadata malformed"

/-- First metadata row with the given name (the sqlite
`SELECT value FROM metadata WHERE name=...` loop that returns on its first
row). -/
def lookupMeta (metadata : List (String × String)) (name : String) :
    Option String :=
  lookupCache metadata name

/-- `RevGeocoder::getOrigin` (lines 156-166): `(0, 0)` when no `origin`
metadata row exists. -/
def RevGeocoder.getOrigin (store : Store) : Except String Vec2 :=
  match lookupMeta store.metadata "origin" with
  | some value => parseOriginValue value
  | none => Except.ok (0, 0)

/-- `RevGeocoder::getBounds` (lines 168-180): no bounds when no `bounds`
metadata row exists. -/
def RevGeocoder.getBounds (store : Store) : Except String (Option BBox) :=
  match lookupMeta store.metadata "bounds" with
  | some value => (parseBoundsValue value).map some
  | none => Except.ok none

/-- `RevGeocoder::import` (lines 15-24): assign the next sequential id, read
bounds and origin metadata, append to the registry and return `true`.
A metadata parse failure (a C++ exception thrown from `getBounds`/`getOrigin`)
propagates before the `push_back`, so the failing branch produces no new
state: the registry is exactly the caller's. (`import` is a Lean keyword, so
the embedding is named `importDatabase`.) -/
def RevGeocoder.importDatabase (s : GeocState) (store : Store) :
    Except String (GeocState × Bool) :=
  match RevGeocoder.getBounds store, RevGeocoder.getOrigin store with
  | Except.ok bounds, Except.ok origin =>
    Except.ok ({ s with databases := s.databases ++
      [⟨"db" ++ Nat.repr s.databases.length, store, bounds, origin⟩] }, true)
  | Except.error e, _ => Except.error e
  | Except.ok _, Except.error e => Except.error e

/-- Whether an `Except` computation failed. -/
def isError {ε α : Type} : Except ε α → Bool
  | Except.error _ => true
  | Except.ok _ => false

/-- `RevGeocoder::getRadius` (lines 26-29). -/
def RevGeocoder.getRadius (s : GeocState) : ℚ := s.radius

/-- `RevGeocoder::setRadius` (lines 31-34). -/
def RevGeocoder.setRadius (s : GeocState) (radius : ℚ) : GeocState :=
  { s with radius := radius }

/-- `RevGeocoder::getLanguage` (lines 36-39). -/
def RevGeocoder.getLanguage (s : GeocState) : String := s.language

/-- `RevGeocoder::setLanguage` (lines 41-45): set the language and clear the
address cache. -/
def RevGeocoder.setLanguage (s : GeocState) (language : String) : GeocState :=
  { s with language := language, addressCache := [] }

/-- `RevGeocoder::isFilterEnabled` (lines 47-50). -/
def RevGeocoder.isFilterEnabled (s : GeocState) (t : AddressType) : Bool :=
  s.enabledFilters.contains t

/-- `RevGeocoder::setFilterEnabled` (lines 52-61): append the type when
enabling and it is absent; erase its first occurrence when disabling and it
is present; otherwise leave the list untouched. -/
def RevGeocoder.setFilterEnabled (s : GeocState) (t : AddressType)
    (enabled : Bool) : GeocState :=
  if enabled && !(s.enabledFilters.contains t) then
    { s with enabledFilters := s.enabledFilters ++ [t] }
  else if !enabled && s.enabledFilters.contains t then
    { s with enabledFilters := s.enabledFilters.erase t }
  else s

/-! ## Cache lookup lemmas -/

theorem lookupCache_nil {α β : Type} [DecidableEq α] (key : α) :
    lookupCache ([] : List (α × β)) key = none := rfl

theorem lookupCache_cons {α β : Type} [DecidableEq α] (k : α) (v : β)
    (l : List (α × β)) (key : α) :
    lookupCache ((k, v) :: l) key =
      if k = key then some v else lookupCache l key := rfl

/-! ## Bounding prefilter soundness (C3) -/

theorem clamp_sq_le (lo hi x e : ℚ) (h1 : lo ≤ e) (h2 : e ≤ hi) :
    (clampQ lo hi x - x) ^ 2 ≤ (e - x) ^ 2 := by
  unfold clampQ
  split_ifs with hlo hhi
  · nlinarith
  · nlinarith
  · nlinarith [sq_nonneg (e - x)]

theorem scaledDistSq_nearestPoint_le (b : BBox) (scale p e : Vec2)
    (he1 : b.min.1 ≤ e.1) (he2 : e.1 ≤ b.max.1)
    (he3 : b.min.2 ≤ e.2) (he4 : e.2 ≤ b.max.2) :
    scaledDistSq scale p (b.nearestPoint p) ≤ scaledDistSq scale p e := by
  unfold scaledDistSq BBox.nearestPoint
  have h1 := clamp_sq_le b.min.1 b.max.1 p.1 e.1 he1 he2
  have h2 := clamp_sq_le b.min.2 b.max.2 p.2 e.2 he3 he4
  nlinarith [mul_le_mul_of_nonneg_right h1 (sq_nonneg scale.1),
    mul_le_mul_of_nonneg_right h2 (sq_nonneg scale.2)]

/-- C3: the bounding prefilter of `findAddresses` is sound. For a database
with bounds `b`, the scaled squared metric distance the prefilter computes
from the query point `p` to the nearest point of `b` is at most that to any
entity position `e` inside `b`; the prefilter skips only when the computed
distance exceeds the radius (`radius < 0` or `radius² <` computed squared
distance); hence whenever it skips, no entity inside `b` lies within the
radius of `p` under the anisotropically scaled metric — a database that can
contain a true match is never discarded. -/
theorem prefilter_sound (b : BBox) (scale p e : Vec2) (radius : ℚ)
    (he : b.min.1 ≤ e.1 ∧ e.1 ≤ b.max.1 ∧ b.min.2 ≤ e.2 ∧ e.2 ≤ b.max.2) :
    scaledDistSq scale p (b.nearestPoint p) ≤ scaledDistSq scale p e
    ∧ (prefilterSkips b scale p radius = true →
        radius < 0 ∨ radius * radius < scaledDistSq scale p (b.nearestPoint p))
    ∧ (prefilterSkips b scale p radius = true →
        ¬(0 ≤ radius ∧ scaledDistSq scale p e ≤ radius * radius)) := by
  obtain ⟨he1, he2, he3, he4⟩ := he
  have hle := scaledDistSq_nearestPoint_le b scale p e he1 he2 he3 he4
  have hskip : prefilterSkips b scale p radius = true →
      radius < 0 ∨ radius * radius < scaledDistSq scale p (b.nearestPoint p) := by
    intro h
    unfold prefilterSkips at h
    simpa using h
  refine ⟨hle, hskip, fun h ⟨hr, hclose⟩ => ?_⟩
  rcases hskip h with h' | h'
  · exact absurd hr (not_le.mpr h')
  · linarith

/-- Witness for C3 at a concrete instance: bounds `[0,1]×[0,1]`, entity
`(0, 0)`, query point `(5, 5)`, unit scale, radius `1`. -/
theorem prefilter_sound_witness :
    ((BBox.mk (0, 0) (1, 1)).min.1 ≤ ((0 : ℚ), (0 : ℚ)).1
      ∧ ((0 : ℚ), (0 : ℚ)).1 ≤ (BBox.mk (0, 0) (1, 1)).max.1
      ∧ (BBox.mk (0, 0) (1, 1)).min.2 ≤ ((0 : ℚ), (0 : ℚ)).2
      ∧ ((0 : ℚ), (0 : ℚ)).2 ≤ (BBox.mk (0, 0) (1, 1)).max.2)
    ∧ (scaledDistSq (1, 1) (5, 5)
          ((BBox.mk (0, 0) (1, 1)).nearestPoint (5, 5))
        ≤ scaledDistSq (1, 1) (5, 5) ((0 : ℚ), (0 : ℚ))
      ∧ (prefilterSkips (BBox.mk (0, 0) (1, 1)) (1, 1) (5, 5) 1 = true →
          (1 : ℚ) < 0 ∨ (1 : ℚ) * 1 < scaledDistSq (1, 1) (5, 5)
            ((BBox.mk (0, 0) (1, 1)).nearestPoint (5, 5)))
      ∧ (prefilterSkips (BBox.mk (0, 0) (1, 1)) (1, 1) (5, 5) 1 = true →
          ¬((0 : ℚ) ≤ 1 ∧ scaledDistSq (1, 1) (5, 5) ((0 : ℚ), (0 : ℚ))
              ≤ 1 * 1))) :=
  ⟨⟨le_refl 0, zero_le_one, le_refl 0, zero_le_one⟩,
    prefilter_sound (BBox.mk (0, 0) (1, 1)) (1, 1) (5, 5)
      ((0 : ℚ), (0 : ℚ)) 1 ⟨le_refl 0, zero_le_one, le_refl 0, zero_le_one⟩⟩

/-! ## Ranking (C1, C2) -/

theorem rankOf_spec (d r rk : ℚ) (hd : 0 ≤ d) (_hdr : d ≤ r) (hr : 0 < r)
    (h : rankOf d r = some rk) :
    rk = 1 - d / r ∧ 0 < rk ∧ rk ≤ 1 ∧ d < r := by
  unfold rankOf at h
  rw [if_neg (ne_of_gt hr)] at h
  by_cases hpos : 0 < 1 - d / r
  · rw [if_pos hpos] at h
    have hrk : rk = 1 - d / r := (Option.some.inj h).symm
    subst hrk
    have hdiv : 0 ≤ d / r := div_nonneg hd hr.le
    refine ⟨rfl, hpos, by linarith, ?_⟩
    have : d / r < 1 := by linarith
    exact (div_lt_one hr).mp this
  · rw [if_neg hpos] at h
    cases h

theorem rankOf_none_of_nonpos (d r : ℚ) (hr : r ≤ 0) (hd : 0 ≤ d)
    (hdr : d ≤ r) : rankOf d r = none := by
  rcases lt_or_eq_of_le hr with h | h
  · exact absurd (le_trans hd hdr) (not_le.mpr h)
  · subst h
    rfl

theorem mem_resolveResults (db : Database) (lang : String) (radius : ℚ)
    (results : List (ℕ × ℚ)) (ac : AddrCache) (p : Address × ℚ)
    (hp : p ∈ (resolveResults db lang radius results ac).1) :
    ∃ eid d, (eid, d) ∈ results ∧ rankOf d radius = some p.2 := by
  induction results generalizing ac with
  | nil => simp [resolveResults] at hp
  | cons head tail ih =>
    obtain ⟨eid, d⟩ := head
    simp only [resolveResults] at hp
    cases hrank : rankOf d radius with
    | none =>
      rw [hrank] at hp
      obtain ⟨eid', d', hm, hr⟩ := ih _ hp
      exact ⟨eid', d', List.mem_cons_of_mem _ hm, hr⟩
    | some rank =>
      rw [hrank] at hp
      cases hc : lookupCache ac (db.id, eid) with
      | some addr =>
        rw [hc] at hp
        rcases List.mem_cons.mp hp with h | h
        · exact ⟨eid, d, List.mem_cons_self _ _, by rw [h, hrank]⟩
        · obtain ⟨eid', d', hm, hr⟩ := ih _ h
          exact ⟨eid', d', List.mem_cons_of_mem _ hm, hr⟩
      | none =>
        rw [hc] at hp
        rcases List.mem_cons.mp hp with h | h
        · exact ⟨eid, d, List.mem_cons_self _ _, by rw [h, hrank]⟩
        · obtain ⟨eid', d', hm, hr⟩ := ih _ h
          exact ⟨eid', d', List.mem_cons_of_mem _ hm, hr⟩

theorem mem_findGeometries_dist (ext : ExternalModel)
    (filters : List AddressType) (db : Database) (lng lat radius : ℚ)
    (qc : QueryCache) (counter : ℕ) (p : ℕ × ℚ)
    (hp : p ∈ (QuadIndex.findGeometries ext filters db lng lat radius qc
      counter).1) : 0 ≤ p.2 ∧ p.2 ≤ radius := by
  unfold QuadIndex.findGeometries at hp
  simp only [List.mem_filter, Bool.and_eq_true, decide_eq_true_eq] at hp
  exact hp.2

theorem mem_queryDatabase (ext : ExternalModel) (radius : ℚ) (lang : String)
    (filters : List AddressType) (lng lat : ℚ) (db : Database)
    (ac : AddrCache) (qc : QueryCache) (counter : ℕ) (p : Address × ℚ)
    (hp : p ∈ (queryDatabase ext radius lang filters lng lat db ac qc
      counter).1) :
    ∃ d, 0 ≤ d ∧ d ≤ radius ∧ rankOf d radius = some p.2 := by
  unfold queryDatabase at hp
  obtain ⟨eid, d, hm, hr⟩ := mem_resolveResults _ _ _ _ _ _ hp
  have hd := mem_findGeometries_dist ext filters db lng lat radius qc counter
    (eid, d) hm
  exact ⟨d, hd.1, hd.2, hr⟩

theorem mem_processDatabase (ext : ExternalModel) (radius : ℚ)
    (lang : String) (filters : List AddressType) (lng lat : ℚ)
    (db : Database) (ac : AddrCache) (qc : QueryCache) (counter prev : ℕ)
    (p : Address × ℚ)
    (hp : p ∈ (processDatabase ext radius lang filters lng lat db ac qc
      counter prev).1) :
    ∃ d, 0 ≤ d ∧ d ≤ radius ∧ rankOf d radius = some p.2 := by
  unfold processDatabase at hp
  split at hp
  · split at hp
    · simp at hp
    · exact mem_queryDatabase _ _ _ _ _ _ _ _ _ _ _ hp
  · exact mem_queryDatabase _ _ _ _ _ _ _ _ _ _ _ hp

theorem mem_processDatabases (ext : ExternalModel) (radius : ℚ)
    (lang : String) (filters : List AddressType) (lng lat : ℚ)
    (dbs : List Database) (ac : AddrCache) (qc : QueryCache)
    (counter prev : ℕ) (p : Address × ℚ)
    (hp : p ∈ (processDatabases ext radius lang filters lng lat dbs ac qc
      counter prev).1) :
    ∃ d, 0 ≤ d ∧ d ≤ radius ∧ rankOf d radius = some p.2 := by
  induction dbs generalizing ac qc counter prev with
  | nil => simp [processDatabases] at hp
  | cons db rest ih =>
    simp only [processDatabases] at hp
    rcases List.mem_append.mp hp with h | h
    · exact mem_processDatabase _ _ _ _ _ _ _ _ _ _ _ _ h
    · exact ih _ _ _ _ h

/-- C1: for every `findAddresses` call with configured radius `r > 0`, every
returned `(Address, rank)` pair has `rank = 1 - d / r` for the distance `d`
the quad index reported for that entity, with `0 ≤ d < r`, so the rank lies
strictly in `(0, 1]`; the rank formula is strictly decreasing in distance;
and a match at distance exactly `r` is excluded (its rank is discarded). -/
theorem findAddresses_rank_spec (ext : ExternalModel) (s : GeocState)
    (lng lat : ℚ) (hr : 0 < s.radius) :
    (∀ p ∈ (RevGeocoder.findAddresses ext s lng lat).1,
        ∃ d, 0 ≤ d ∧ d < s.radius ∧ p.2 = 1 - d / s.radius
          ∧ 0 < p.2 ∧ p.2 ≤ 1)
    ∧ (∀ d1 d2 : ℚ, 0 ≤ d1 → d1 < d2 → d2 ≤ s.radius →
        1 - d2 / s.radius < 1 - d1 / s.radius)
    ∧ rankOf s.radius s.radius = none := by
  refine ⟨?_, ?_, ?_⟩
  · intro p hp
    obtain ⟨d, hd0, hdr, hrank⟩ := mem_processDatabases ext s.radius
      s.language s.enabledFilters lng lat s.databases s.addressCache
      s.queryCache s.entityQueryCounter s.previousEntityQueryCounter p hp
    obtain ⟨heq, hpos, hle, hlt⟩ := rankOf_spec d s.radius p.2 hd0 hdr hr hrank
    exact ⟨d, hd0, hlt, heq, hpos, hle⟩
  · intro d1 d2 _ h12 _
    have h : d1 / s.radius < d2 / s.radius := by gcongr
    linarith
  · unfold rankOf
    rw [if_neg (ne_of_gt hr)]
    rw [if_neg]
    rw [div_self (ne_of_gt hr)]
    simp

theorem resolveResults_nil_of_rank_none (db : Database) (lang : String)
    (radius : ℚ) (results : List (ℕ × ℚ)) (ac : AddrCache)
    (h : ∀ p ∈ results, rankOf p.2 radius = none) :
    (resolveResults db lang radius results ac).1 = [] := by
  induction results generalizing ac with
  | nil => simp [resolveResults]
  | cons head tail ih =>
    obtain ⟨eid, d⟩ := head
    have hd := h (eid, d) (List.mem_cons_self _ _)
    simp only [resolveResults]
    rw [hd]
    exact ih _ fun p hp => h p (List.mem_cons_of_mem _ hp)

theorem processDatabases_nil_of_nonpos (ext : ExternalModel) (radius : ℚ)
    (lang : String) (filters : List AddressType) (lng lat : ℚ)
    (dbs : List Database) (ac : AddrCache) (qc : QueryCache)
    (counter prev : ℕ) (hr : radius ≤ 0) :
    (processDatabases ext radius lang filters lng lat dbs ac qc counter
      prev).1 = [] := by
  induction dbs generalizing ac qc counter prev with
  | nil => simp [processDatabases]
  | cons db rest ih =>
    simp only [processDatabases]
    rw [List.append_eq_nil]
    constructor
    · unfold processDatabase
      split
      · split
        · rfl
        · unfold queryDatabase
          apply resolveResults_nil_of_rank_none
          intro p hp
          have hd := mem_findGeometries_dist ext filters db lng lat radius qc
            counter p hp
          exact rankOf_none_of_nonpos p.2 radius hr hd.1 hd.2
      · unfold queryDatabase
        apply resolveResults_nil_of_rank_none
        intro p hp
        have hd := mem_findGeometries_dist ext filters db lng lat radius qc
          counter p hp
        exact rankOf_none_of_nonpos p.2 radius hr hd.1 hd.2
    · exact ih _ _ _ _

/-- C2: a zero or negative configured radius makes `findAddresses` return an
empty list for every query point and every database content, without error:
the spec-modelled quad index reports no candidate at a distance within a
negative radius, and at radius zero the IEEE `rank > 0` test (embedded in
`rankOf`) discards every candidate. -/
theorem findAddresses_nonpos_radius (ext : ExternalModel) (s : GeocState)
    (lng lat : ℚ) (hr : s.radius ≤ 0) :
    (RevGeocoder.findAddresses ext s lng lat).1 = [] :=
  processDatabases_nil_of_nonpos ext s.radius s.language s.enabledFilters
    lng lat s.databases s.addressCache s.queryCache s.entityQueryCounter
    s.previousEntityQueryCounter hr

/-! ## Concrete witness material -/

/-- A trivial external-collaborator model for witnesses. -/
def extTrivial : ExternalModel :=
  ⟨fun _ => (1, 1), id, fun _ _ _ => [], fun _ _ _ => 0, fun _ _ => []⟩

/-- A fixed address value for witness stores. -/
def addressZero : Address := ⟨AddressType.street, [], "", none⟩

/-- A store with no metadata and no entities. -/
def storeEmpty : Store := ⟨[], [], fun _ _ _ => addressZero⟩

/-- An engine state with no databases, radius 1. -/
def stateEmpty : GeocState := ⟨[], 1, "en", [], [], [], 0, 0⟩

/-- An engine state with no databases, radius 0. -/
def stateZeroRadius : GeocState := ⟨[], 0, "en", [], [], [], 0, 0⟩

/-- Witness for C1 at the concrete state `stateEmpty` (radius 1). -/
theorem findAddresses_rank_spec_witness :
    (0 : ℚ) < stateEmpty.radius
    ∧ ((∀ p ∈ (RevGeocoder.findAddresses extTrivial stateEmpty 0 0).1,
          ∃ d, 0 ≤ d ∧ d < stateEmpty.radius
            ∧ p.2 = 1 - d / stateEmpty.radius ∧ 0 < p.2 ∧ p.2 ≤ 1)
      ∧ (∀ d1 d2 : ℚ, 0 ≤ d1 → d1 < d2 → d2 ≤ stateEmpty.radius →
          1 - d2 / stateEmpty.radius < 1 - d1 / stateEmpty.radius)
      ∧ rankOf stateEmpty.radius stateEmpty.radius = none) :=
  ⟨zero_lt_one, findAddresses_rank_spec extTrivial stateEmpty 0 0 zero_lt_one⟩

/-- Witness for C2 at the concrete state `stateZeroRadius` (radius 0). -/
theorem findAddresses_nonpos_radius_witness :
    stateZeroRadius.radius ≤ 0
    ∧ (RevGeocoder.findAddresses extTrivial stateZeroRadius 0 0).1 = [] :=
  ⟨le_refl 0,
    findAddresses_nonpos_radius extTrivial stateZeroRadius 0 0 (le_refl 0)⟩

/-! ## Configuration frame properties (C5, C10, C7) -/

/-- C5: for every language code, `setLanguage` sets the active language and
empties the entire address cache, leaving the geometry-info (query) cache,
the database list, the radius and the enabled-filter set unchanged. -/
theorem setLanguage_spec (s : GeocState) (code : String) :
    (RevGeocoder.setLanguage s code).language = code
    ∧ (RevGeocoder.setLanguage s code).addressCache = []
    ∧ (RevGeocoder.setLanguage s code).queryCache = s.queryCache
    ∧ (RevGeocoder.setLanguage s code).databases = s.databases
    ∧ (RevGeocoder.setLanguage s code).radius = s.radius
    ∧ (RevGeocoder.setLanguage s code).enabledFilters = s.enabledFilters :=
  ⟨rfl, rfl, rfl, rfl, rfl, rfl⟩

/-- C10: `setRadius` performs no validation or clamping: for every value `r`
(the float argument idealized over `ℚ`, negative values included),
`setRadius r` followed by `getRadius` returns exactly `r`, the function is
total (never errors), and no other engine state — caches, language, filters,
database list, counters — is altered. -/
theorem setRadius_spec (s : GeocState) (r : ℚ) :
    RevGeocoder.getRadius (RevGeocoder.setRadius s r) = r
    ∧ (RevGeocoder.setRadius s r).databases = s.databases
    ∧ (RevGeocoder.setRadius s r).language = s.language
    ∧ (RevGeocoder.setRadius s r).enabledFilters = s.enabledFilters
    ∧ (RevGeocoder.setRadius s r).addressCache = s.addressCache
    ∧ (RevGeocoder.setRadius s r).queryCache = s.queryCache
    ∧ (RevGeocoder.setRadius s r).entityQueryCounter = s.entityQueryCounter
    ∧ (RevGeocoder.setRadius s r).previousEntityQueryCounter
        = s.previousEntityQueryCounter :=
  ⟨rfl, rfl, rfl, rfl, rfl, rfl, rfl, rfl⟩

theorem setFilterEnabled_true_of_mem (s : GeocState) (t : AddressType)
    (hm : t ∈ s.enabledFilters) :
    RevGeocoder.setFilterEnabled s t true = s := by
  simp [RevGeocoder.setFilterEnabled, hm]

theorem setFilterEnabled_true_of_not_mem (s : GeocState) (t : AddressType)
    (hm : t ∉ s.enabledFilters) :
    RevGeocoder.setFilterEnabled s t true =
      { s with enabledFilters := s.enabledFilters ++ [t] } := by
  simp [RevGeocoder.setFilterEnabled, hm]

theorem contains_setFilterEnabled_true (s : GeocState) (t : AddressType) :
    (RevGeocoder.setFilterEnabled s t true).enabledFilters.contains t
      = true := by
  by_cases hm : t ∈ s.enabledFilters
  · rw [setFilterEnabled_true_of_mem s t hm]
    simpa using hm
  · rw [setFilterEnabled_true_of_not_mem s t hm]
    simp

/-- C7: filter mutation is idempotent. Enabling a type `T` twice yields the
same enabled-filter set as enabling it once; after enabling, `T` appears
exactly once (the hypothesis `count ≤ 1` is the no-duplicates invariant every
reachable engine state satisfies, since the code appends only when absent);
disabling an absent type is a no-op; and `isFilterEnabled` reports membership
accordingly in each case. -/
theorem setFilterEnabled_idem (s : GeocState) (t : AddressType)
    (hcount : s.enabledFilters.count t ≤ 1) :
    RevGeocoder.setFilterEnabled (RevGeocoder.setFilterEnabled s t true) t
        true = RevGeocoder.setFilterEnabled s t true
    ∧ (RevGeocoder.setFilterEnabled s t true).enabledFilters.count t = 1
    ∧ (t ∉ s.enabledFilters → RevGeocoder.setFilterEnabled s t false = s)
    ∧ RevGeocoder.isFilterEnabled (RevGeocoder.setFilterEnabled s t true) t
        = true
    ∧ (t ∉ s.enabledFilters →
        RevGeocoder.isFilterEnabled (RevGeocoder.setFilterEnabled s t false) t
          = false) := by
  have hA := contains_setFilterEnabled_true s t
  have hnoop : ∀ u : GeocState, u.enabledFilters.contains t = true →
      RevGeocoder.setFilterEnabled u t true = u := by
    intro u hu
    have hm : t ∈ u.enabledFilters := by simpa using hu
    simp [RevGeocoder.setFilterEnabled, hm]
  have habsent : t ∉ s.enabledFilters →
      RevGeocoder.setFilterEnabled s t false = s := by
    intro hm
    simp [RevGeocoder.setFilterEnabled, hm]
  refine ⟨hnoop _ hA, ?_, habsent, ?_, ?_⟩
  · by_cases hm : t ∈ s.enabledFilters
    · rw [setFilterEnabled_true_of_mem s t hm]
      have h1 : 1 ≤ s.enabledFilters.count t := List.count_pos_iff.mpr hm
      omega
    · rw [setFilterEnabled_true_of_not_mem s t hm]
      simp [List.count_eq_zero.mpr hm]
  · exact hA
  · intro hm
    rw [habsent hm]
    simpa [RevGeocoder.isFilterEnabled] using hm

/-- Witness for C7 at the concrete state `stateEmpty` and type `street`. -/
theorem setFilterEnabled_idem_witness :
    stateEmpty.enabledFilters.count AddressType.street ≤ 1
    ∧ (RevGeocoder.setFilterEnabled
          (RevGeocoder.setFilterEnabled stateEmpty AddressType.street true)
          AddressType.street true
        = RevGeocoder.setFilterEnabled stateEmpty AddressType.street true
      ∧ (RevGeocoder.setFilterEnabled stateEmpty AddressType.street
          true).enabledFilters.count AddressType.street = 1
      ∧ (AddressType.street ∉ stateEmpty.enabledFilters →
          RevGeocoder.setFilterEnabled stateEmpty AddressType.street false
            = stateEmpty)
      ∧ RevGeocoder.isFilterEnabled
          (RevGeocoder.setFilterEnabled stateEmpty AddressType.street true)
          AddressType.street = true
      ∧ (AddressType.street ∉ stateEmpty.enabledFilters →
          RevGeocoder.isFilterEnabled
            (RevGeocoder.setFilterEnabled stateEmpty AddressType.street false)
            AddressType.street = false)) :=
  ⟨Nat.zero_le 1,
    setFilterEnabled_idem stateEmpty AddressType.street (Nat.zero_le 1)⟩

/-! ## Packed entity ids (C6) -/

theorem packEntityId_eq_arith (k r : ℕ) (hk : k < 2 ^ 32) (hr : r < 2 ^ 32) :
    packEntityId k r = 2 ^ 32 * k + r := by
  unfold packEntityId
  rw [Nat.shiftLeft_eq, Nat.mul_comm k (2 ^ 32), ← Nat.mul_add_lt_is_or hr k]
  apply Nat.mod_eq_of_lt
  have h64 : (2 : ℕ) ^ 64 = 2 ^ 32 * 2 ^ 32 := by norm_num
  rw [h64]
  calc 2 ^ 32 * k + r < 2 ^ 32 * k + 2 ^ 32 := by omega
    _ = 2 ^ 32 * (k + 1) := by ring
    _ ≤ 2 ^ 32 * 2 ^ 32 := Nat.mul_le_mul_left _ (by omega)

/-- C6 counterexample: the claim quantifies over every 1-based interpolation
index `k`, but the packing is done in 64-bit arithmetic, so the high 32 bits
cannot carry an index `k ≥ 2^32`: at row id `5` (which satisfies the claim's
`r < 2^32` bound) the indices `2^32 + 1` and `1` produce the same packed id,
and decoding does not return the original index. -/
theorem packEntityId_counterexample :
    (5 : ℕ) < 2 ^ 32
    ∧ packEntityId (2 ^ 32 + 1) 5 = packEntityId 1 5
    ∧ packedIndex (packEntityId (2 ^ 32 + 1) 5) ≠ 2 ^ 32 + 1 := by
  refine ⟨by norm_num, ?_, ?_⟩
  · decide
  · decide

/-- C6 (amended): for every row id `r < 2^32` and every 1-based interpolation
index `k` with `k < 2^32` — the indices the 32-bit high half can carry — the
packed id `(k <<< 32) ||| r` decodes back to exactly `(r, k)` (low 32 bits
`r`, high 32 bits `k`), the packing is injective on such pairs, and no packed
interpolated id (`k ≥ 1`) equals a direct 32-bit row id. -/
theorem packEntityId_roundtrip (k r : ℕ) (hr : r < 2 ^ 32) (hk1 : 1 ≤ k)
    (hk : k < 2 ^ 32) :
    packedRowId (packEntityId k r) = r
    ∧ packedIndex (packEntityId k r) = k
    ∧ (∀ k' r' : ℕ, r' < 2 ^ 32 → k' < 2 ^ 32 →
        packEntityId k r = packEntityId k' r' → k = k' ∧ r = r')
    ∧ (∀ r' : ℕ, r' < 2 ^ 32 → packEntityId k r ≠ r') := by
  have h32 : (2 : ℕ) ^ 32 = 4294967296 := by norm_num
  have he := packEntityId_eq_arith k r hk hr
  rw [h32] at he hr hk
  refine ⟨?_, ?_, ?_, ?_⟩
  · unfold packedRowId
    rw [he, h32]
    omega
  · unfold packedIndex
    rw [he, h32]
    omega
  · intro k' r' hr' hk' heq
    have he' := packEntityId_eq_arith k' r' hk' hr'
    rw [h32] at he' hr' hk'
    rw [he, he'] at heq
    omega
  · intro r' hr'
    rw [he, h32] at *
    omega

/-- Witness for C6 (amended) at `k = 3`, `r = 7`. -/
theorem packEntityId_roundtrip_witness :
    (7 : ℕ) < 2 ^ 32 ∧ (1 : ℕ) ≤ 3 ∧ (3 : ℕ) < 2 ^ 32
    ∧ (packedRowId (packEntityId 3 7) = 7
      ∧ packedIndex (packEntityId 3 7) = 3
      ∧ (∀ k' r' : ℕ, r' < 2 ^ 32 → k' < 2 ^ 32 →
          packEntityId 3 7 = packEntityId k' r' → 3 = k' ∧ 7 = r')
      ∧ (∀ r' : ℕ, r' < 2 ^ 32 → packEntityId 3 7 ≠ r')) :=
  ⟨by norm_num, by norm_num, by norm_num,
    packEntityId_roundtrip 3 7 (by norm_num) (by norm_num) (by norm_num)⟩

/-! ## Decimal rendering of database ordinals (for C9)

`import` assigns ids `"db" ++ decimal(n)` via `boost::lexical_cast<string>`,
embedded as `Nat.repr`. Uniqueness of the ids requires injectivity of the
decimal rendering, proved here by reconstructing the value from the digit
list `Nat.toDigitsCore` produces. -/

/-- Numeric value of a decimal digit list (most significant first). -/
def evalDigits (cs : List Char) : ℕ :=
  cs.foldl (fun a c => a * 10 + (c.toNat - 48)) 0

theorem toDigitsCore_append (fuel : ℕ) : ∀ (n : ℕ) (ds : List Char),
    Nat.toDigitsCore 10 fuel n ds = Nat.toDigitsCore 10 fuel n [] ++ ds := by
  induction fuel with
  | zero => intro n ds; simp [Nat.toDigitsCore]
  | succ fuel ih =>
    intro n ds
    simp only [Nat.toDigitsCore]
    by_cases h : n / 10 = 0
    · simp [h]
    · rw [if_neg h, if_neg h, ih (n / 10) (Nat.digitChar (n % 10) :: ds),
        ih (n / 10) [Nat.digitChar (n % 10)], List.append_assoc]
      simp

theorem digitChar_val (m : ℕ) (h : m < 10) :
    (Nat.digitChar m).toNat - 48 = m := by
  interval_cases m <;> rfl

theorem evalDigits_toDigitsCore (fuel : ℕ) : ∀ n : ℕ, n < 10 ^ fuel →
    evalDigits (Nat.toDigitsCore 10 fuel n []) = n := by
  induction fuel with
  | zero =>
    intro n h
    have hn : n = 0 := by omega
    subst hn
    rfl
  | succ fuel ih =>
    intro n h
    simp only [Nat.toDigitsCore]
    by_cases h0 : n / 10 = 0
    · rw [if_pos h0]
      show evalDigits [Nat.digitChar (n % 10)] = n
      unfold evalDigits
      simp only [List.foldl_cons, List.foldl_nil, Nat.zero_mul, Nat.zero_add]
      rw [digitChar_val (n % 10) (Nat.mod_lt n (by norm_num))]
      omega
    · rw [if_neg h0]
      rw [toDigitsCore_append fuel (n / 10) [Nat.digitChar (n % 10)]]
      unfold evalDigits
      rw [List.foldl_append]
      have hlt : n / 10 < 10 ^ fuel := by
        apply (Nat.div_lt_iff_lt_mul (by norm_num)).mpr
        calc n < 10 ^ (fuel + 1) := h
          _ = 10 ^ fuel * 10 := by rw [pow_succ]
      have he := ih (n / 10) hlt
      unfold evalDigits at he
      rw [he]
      simp only [List.foldl_cons, List.foldl_nil]
      rw [digitChar_val (n % 10) (Nat.mod_lt n (by norm_num))]
      omega

theorem self_lt_ten_pow_succ (n : ℕ) : n < 10 ^ (n + 1) :=
  lt_of_lt_of_le (Nat.lt_pow_self (by norm_num) n)
    (Nat.pow_le_pow_right (by norm_num) (Nat.le_succ n))

theorem natRepr_injective : Function.Injective Nat.repr := by
  intro a b h
  unfold Nat.repr at h
  have hd : Nat.toDigits 10 a = Nat.toDigits 10 b := by
    have := congrArg String.data h
    simpa [List.asString] using this
  unfold Nat.toDigits at hd
  calc a = evalDigits (Nat.toDigitsCore 10 (a + 1) a []) :=
      (evalDigits_toDigitsCore (a + 1) a (self_lt_ten_pow_succ a)).symm
    _ = evalDigits (Nat.toDigitsCore 10 (b + 1) b []) := by rw [hd]
    _ = b := evalDigits_toDigitsCore (b + 1) b (self_lt_ten_pow_succ b)

/-- The database id assigned to ordinal `i` (`"db" + lexical_cast(i)`). -/
def dbIdOf (i : ℕ) : String := "db" ++ Nat.repr i

/-- The id list of a registry populated by `n` sequential imports. -/
def canonicalIds (n : ℕ) : List String :=
  (List.range n).map dbIdOf

theorem dbIdOf_injective : Function.Injective dbIdOf := by
  intro a b h
  apply natRepr_injective
  have hdata := congrArg String.data h
  simp only [dbIdOf, String.data_append] at hdata
  have := List.append_cancel_left hdata
  exact String.ext this

theorem canonicalIds_nodup (n : ℕ) : (canonicalIds n).Nodup :=
  (List.nodup_range n).map dbIdOf_injective

theorem canonicalIds_succ (n : ℕ) :
    canonicalIds (n + 1) = canonicalIds n ++ [dbIdOf n] := by
  simp [canonicalIds, List.range_succ]

/-! ## Import (C8, C9) -/

/-- C9: on a store whose metadata is well-formed or absent, `import`
succeeds, appending exactly one database whose id is `"db"` followed by the
number of previously registered databases; when the registry's ids are the
canonical sequential ones, they remain so after the import and are pairwise
distinct; an absent `bounds` row yields no bounds envelope (unbounded) and an
absent `origin` row yields origin `(0, 0)`. -/
theorem importDatabase_ok (s : GeocState) (store : Store) (ob : Option BBox)
    (og : Vec2) (hb : RevGeocoder.getBounds store = Except.ok ob)
    (ho : RevGeocoder.getOrigin store = Except.ok og) :
    RevGeocoder.importDatabase s store = Except.ok
      ({ s with databases := s.databases ++
          [⟨"db" ++ Nat.repr s.databases.length, store, ob, og⟩] }, true)
    ∧ (lookupMeta store.metadata "bounds" = none → ob = none)
    ∧ (lookupMeta store.metadata "origin" = none → og = (0, 0))
    ∧ (s.databases.map Database.id = canonicalIds s.databases.length →
        (s.databases ++
            [(⟨"db" ++ Nat.repr s.databases.length, store, ob, og⟩ :
              Database)]).map Database.id
          = canonicalIds (s.databases.length + 1)
        ∧ (canonicalIds (s.databases.length + 1)).Nodup) := by
  refine ⟨?_, ?_, ?_, ?_⟩
  · unfold RevGeocoder.importDatabase
    rw [hb, ho]
  · intro habs
    unfold RevGeocoder.getBounds at hb
    rw [habs] at hb
    exact (Except.ok.inj hb).symm
  · intro habs
    unfold RevGeocoder.getOrigin at ho
    rw [habs] at ho
    exact (Except.ok.inj ho).symm
  · intro hids
    refine ⟨?_, canonicalIds_nodup _⟩
    rw [List.map_append, hids, canonicalIds_succ]
    rfl

/-- Witness for C9: importing a store with no metadata into the empty
state. -/
theorem importDatabase_ok_witness :
    RevGeocoder.getBounds storeEmpty = Except.ok none
    ∧ RevGeocoder.getOrigin storeEmpty = Except.ok (0, 0)
    ∧ (RevGeocoder.importDatabase stateEmpty storeEmpty = Except.ok
        ({ stateEmpty with databases := stateEmpty.databases ++
            [⟨"db" ++ Nat.repr stateEmpty.databases.length, storeEmpty, none,
              (0, 0)⟩] }, true)
      ∧ (lookupMeta storeEmpty.metadata "bounds" = none → none =
          (none : Option BBox))
      ∧ (lookupMeta storeEmpty.metadata "origin" = none →
          ((0 : ℚ), (0 : ℚ)) = ((0 : ℚ), (0 : ℚ)))
      ∧ (stateEmpty.databases.map Database.id =
            canonicalIds stateEmpty.databases.length →
          (stateEmpty.databases ++
              [(⟨"db" ++ Nat.repr stateEmpty.databases.length, storeEmpty,
                none, (0, 0)⟩ : Database)]).map Database.id
            = canonicalIds (stateEmpty.databases.length + 1)
          ∧ (canonicalIds (stateEmpty.databases.length + 1)).Nodup)) :=
  ⟨rfl, rfl, importDatabase_ok stateEmpty storeEmpty none (0, 0) rfl rfl⟩

/-- A metadata value fails the origin parse when one of its first two fields
is missing or non-numeric. -/
def badOriginValue (v : String) : Prop :=
  fieldNum v 0 = none ∨ fieldNum v 1 = none

/-- A metadata value fails the bounds parse when one of its first four fields
is missing or non-numeric. -/
def badBoundsValue (v : String) : Prop :=
  fieldNum v 0 = none ∨ fieldNum v 1 = none ∨ fieldNum v 2 = none
    ∨ fieldNum v 3 = none

theorem parseOriginValue_error_of_bad (v : String) (h : badOriginValue v) :
    isError (parseOriginValue v) = true := by
  unfold parseOriginValue
  rcases h with h | h
  · rw [h]
    cases fieldNum v 1 <;> rfl
  · rw [h]
    cases fieldNum v 0 <;> rfl

theorem parseBoundsValue_error_of_bad (v : String) (h : badBoundsValue v) :
    isError (parseBoundsValue v) = true := by
  unfold parseBoundsValue
  rcases h with h | h | h | h
  · rw [h]
    cases fieldNum v 1 <;> cases fieldNum v 2 <;> cases fieldNum v 3 <;> rfl
  · rw [h]
    cases fieldNum v 0 <;> cases fieldNum v 2 <;> cases fieldNum v 3 <;> rfl
  · rw [h]
    cases fieldNum v 0 <;> cases fieldNum v 1 <;> cases fieldNum v 3 <;> rfl
  · rw [h]
    cases fieldNum v 0 <;> cases fieldNum v 1 <;> cases fieldNum v 2 <;> rfl

/-- C8 (amended): when the store's `origin` metadata row is present but one
of its first two comma-separated fields is missing or non-numeric, or its
`bounds` row is present but one of its first four fields is missing or
non-numeric, `import` surfaces an error to the caller. The error is a C++
exception thrown from `getBounds`/`getOrigin` before the `push_back` at line
22, so the failing import produces no state: the registry stays exactly the
caller's, with no entry added or modified (the embedding returns
`Except.error` and no successor state). Fields beyond the consumed prefix
are not validated by the code, so (unlike the claim as stated) a value with
extra fields is not an import error. -/
theorem importDatabase_malformed (s : GeocState) (store : Store) (v : String)
    (h : (lookupMeta store.metadata "origin" = some v ∧ badOriginValue v)
       ∨ (lookupMeta store.metadata "bounds" = some v ∧ badBoundsValue v)) :
    isError (RevGeocoder.importDatabase s store) = true := by
  unfold RevGeocoder.importDatabase
  rcases h with ⟨hm, hbad⟩ | ⟨hm, hbad⟩
  · have ho : isError (RevGeocoder.getOrigin store) = true := by
      unfold RevGeocoder.getOrigin
      rw [hm]
      exact parseOriginValue_error_of_bad v hbad
    cases hB : RevGeocoder.getBounds store with
    | error e => rfl
    | ok b =>
      cases hO : RevGeocoder.getOrigin store with
      | error e => rfl
      | ok o =>
        rw [hO] at ho
        exact absurd ho (by simp [isError])
  · have hbnd : isError (RevGeocoder.getBounds store) = true := by
      unfold RevGeocoder.getBounds
      rw [hm]
      show isError (Except.map some (parseBoundsValue v)) = true
      have herr := parseBoundsValue_error_of_bad v hbad
      cases hpb : parseBoundsValue v with
      | error e => rfl
      | ok bb =>
        rw [hpb] at herr
        exact absurd herr (by simp [isError])
    cases hB : RevGeocoder.getBounds store with
    | error e => rfl
    | ok b =>
      rw [hB] at hbnd
      exact absurd hbnd (by simp [isError])

/-- A store whose `origin` metadata value is non-numeric. -/
def storeBadOrigin : Store :=
  ⟨[("origin", "abc")], [], fun _ _ _ => addressZero⟩

/-- Witness for C8 (amended): importing `storeBadOrigin` fails. -/
theorem importDatabase_malformed_witness :
    ((lookupMeta storeBadOrigin.metadata "origin" = some "abc"
        ∧ badOriginValue "abc")
      ∨ (lookupMeta storeBadOrigin.metadata "bounds" = some "abc"
        ∧ badBoundsValue "abc"))
    ∧ isError (RevGeocoder.importDatabase stateEmpty storeBadOrigin) = true :=
  ⟨Or.inl ⟨rfl, Or.inl rfl⟩,
    importDatabase_malformed stateEmpty storeBadOrigin "abc"
      (Or.inl ⟨rfl, Or.inl rfl⟩)⟩

/-- A store whose `origin` metadata value has three fields instead of two. -/
def storeExtraFields : Store :=
  ⟨[("origin", "1,2,3")], [], fun _ _ _ => addressZero⟩

/-- Number of databases registered after an import result. -/
def registeredCount (r : Except String (GeocState × Bool)) : ℕ :=
  match r with
  | Except.ok (s', _) => s'.databases.length
  | Except.error _ => 0

/-- C8 counterexample: the claim says a metadata value with the wrong number
of comma-separated fields makes `import` error with the registry unchanged;
but on a store whose `origin` value `"1,2,3"` has three fields (the schema
prescribes two, `"lng,lat"`), `import` succeeds — no error is surfaced and a
database is registered (the code reads fields 0 and 1 and never checks the
field count). -/
theorem importDatabase_counterexample :
    (splitFields "1,2,3").length ≠ 2
    ∧ isError (RevGeocoder.importDatabase stateEmpty storeExtraFields) = false
    ∧ registeredCount (RevGeocoder.importDatabase stateEmpty storeExtraFields)
        = 1 :=
  ⟨by decide, rfl, rfl⟩

/-! ## Cache transparency (C4)

The query result is shown to coincide with a cache-free pure function of the
configuration, the registered databases and the query arguments, provided
every cache entry is *coherent* — equal to what a fresh resolution of its key
would produce. Coherence holds for empty caches, is preserved by every
`findAddresses` call, and database ids determine their database (true of all
reachable registries, whose ids are the sequential `"db" ++ ordinal`). -/

/-- Cache-free value of the quad-index query against one database. -/
def pureGeometries (ext : ExternalModel) (filters : List AddressType)
    (db : Database) (lng lat radius : ℚ) : List (ℕ × ℚ) :=
  ((((ext.probes lng lat radius).map (freshInfos ext filters db)).flatten).map
    fun gi => (gi.1, ext.distTo lng lat gi.2)).filter
    fun p => decide (0 ≤ p.2) && decide (p.2 ≤ radius)

/-- Cache-free value of the ranking / address-resolution loop. -/
def pureResolve (db : Database) (lang : String) (radius : ℚ)
    (results : List (ℕ × ℚ)) : List (Address × ℚ) :=
  results.filterMap fun p => (rankOf p.2 radius).map
    fun rank => (db.store.loadAddress p.1 lang db.origin, rank)

/-- Cache-free value of one database's contribution to `findAddresses`. -/
def pureProcessDatabase (ext : ExternalModel) (radius : ℚ) (lang : String)
    (filters : List AddressType) (lng lat : ℚ) (db : Database) :
    List (Address × ℚ) :=
  match db.bounds with
  | some b =>
    if prefilterSkips b (ext.wgs84Meters (lng, lat)) (lng, lat) radius then []
    else pureResolve db lang radius
      (pureGeometries ext filters db lng lat radius)
  | none => pureResolve db lang radius
      (pureGeometries ext filters db lng lat radius)

/-- Cache-free value of the whole federated query. -/
def pureFindAddresses (ext : ExternalModel) (radius : ℚ) (lang : String)
    (filters : List AddressType) (lng lat : ℚ) (dbs : List Database) :
    List (Address × ℚ) :=
  (dbs.map (pureProcessDatabase ext radius lang filters lng lat)).flatten

/-- Every geometry-info cache entry equals a fresh resolution of its key. -/
def qcCoherent (ext : ExternalModel) (dbs : List Database)
    (qc : QueryCache) : Prop :=
  ∀ db ∈ dbs, ∀ qis filters infos,
    lookupCache qc (db.id, qis, filters) = some infos →
    infos = freshInfos ext filters db qis

/-- Every address cache entry equals a fresh load of its key. -/
def acCoherent (dbs : List Database) (language : String)
    (ac : AddrCache) : Prop :=
  ∀ db ∈ dbs, ∀ eid addr,
    lookupCache ac (db.id, eid) = some addr →
    addr = db.store.loadAddress eid language db.origin

/-- A database id determines its registry entry (ids are unique). -/
def distinctIds (dbs : List Database) : Prop :=
  ∀ db1 ∈ dbs, ∀ db2 ∈ dbs, db1.id = db2.id → db1 = db2

theorem findGeometryInfo_spec (ext : ExternalModel)
    (filters : List AddressType) (dbs : List Database) (db : Database)
    (qis : List ℕ) (qc : QueryCache) (counter : ℕ) (hdb : db ∈ dbs)
    (hdist : distinctIds dbs) (hqc : qcCoherent ext dbs qc) :
    (RevGeocoder.findGeometryInfo ext filters db qis qc counter).1
      = freshInfos ext filters db qis
    ∧ qcCoherent ext dbs
        (RevGeocoder.findGeometryInfo ext filters db qis qc counter).2.1 := by
  unfold RevGeocoder.findGeometryInfo
  cases hl : lookupCache qc ((db.id, qis, filters) : QueryKey) with
  | some infos =>
    exact ⟨(hqc db hdb qis filters infos hl).symm ▸ rfl, hqc⟩
  | none =>
    refine ⟨rfl, ?_⟩
    intro db' hdb' qis' filters' infos' hlook
    rw [lookupCache_cons] at hlook
    by_cases hk : ((db.id, qis, filters) : QueryKey) = (db'.id, qis', filters')
    · rw [if_pos hk] at hlook
      obtain ⟨hid, hqis, hfil⟩ : db.id = db'.id ∧ qis = qis' ∧ filters = filters' := by
        have h1 := congrArg Prod.fst hk
        have h2 := congrArg (fun p : QueryKey => p.2.1) hk
        have h3 := congrArg (fun p : QueryKey => p.2.2) hk
        exact ⟨h1, h2, h3⟩
      have hdbeq : db = db' := hdist db hdb db' hdb' hid
      subst hdbeq
      rw [← hqis, ← hfil]
      exact (Option.some.inj hlook).symm
    · rw [if_neg hk] at hlook
      exact hqc db' hdb' qis' filters' infos' hlook

theorem runBatches_spec (ext : ExternalModel) (filters : List AddressType)
    (dbs : List Database) (db : Database) (batches : List (List ℕ))
    (qc : QueryCache) (counter : ℕ) (hdb : db ∈ dbs)
    (hdist : distinctIds dbs) (hqc : qcCoherent ext dbs qc) :
    (runBatches ext filters db batches qc counter).1
      = (batches.map (freshInfos ext filters db)).flatten
    ∧ qcCoherent ext dbs (runBatches ext filters db batches qc counter).2.1 := by
  induction batches generalizing qc counter with
  | nil => exact ⟨rfl, hqc⟩
  | cons qis rest ih =>
    simp only [runBatches]
    obtain ⟨h1, hc1⟩ := findGeometryInfo_spec ext filters dbs db qis qc
      counter hdb hdist hqc
    obtain ⟨h2, hc2⟩ := ih _ _ hc1
    refine ⟨?_, hc2⟩
    rw [List.map_cons, List.flatten_cons, h1, h2]

theorem findGeometries_spec (ext : ExternalModel)
    (filters : List AddressType) (dbs : List Database) (db : Database)
    (lng lat radius : ℚ) (qc : QueryCache) (counter : ℕ) (hdb : db ∈ dbs)
    (hdist : distinctIds dbs) (hqc : qcCoherent ext dbs qc) :
    (QuadIndex.findGeometries ext filters db lng lat radius qc counter).1
      = pureGeometries ext filters db lng lat radius
    ∧ qcCoherent ext dbs
        (QuadIndex.findGeometries ext filters db lng lat radius qc
          counter).2.1 := by
  unfold QuadIndex.findGeometries pureGeometries
  dsimp only
  obtain ⟨h1, hc1⟩ := runBatches_spec ext filters dbs db
    (ext.probes lng lat radius) qc counter hdb hdist hqc
  rw [h1]
  exact ⟨rfl, hc1⟩

theorem resolveResults_spec (dbs : List Database) (db : Database)
    (lang : String) (radius : ℚ) (results : List (ℕ × ℚ)) (ac : AddrCache)
    (hdb : db ∈ dbs) (hdist : distinctIds dbs)
    (hac : acCoherent dbs lang ac) :
    (resolveResults db lang radius results ac).1
      = pureResolve db lang radius results
    ∧ acCoherent dbs lang (resolveResults db lang radius results ac).2 := by
  induction results generalizing ac with
  | nil => exact ⟨rfl, hac⟩
  | cons head tail ih =>
    obtain ⟨eid, d⟩ := head
    simp only [resolveResults, pureResolve, List.filterMap_cons]
    cases hrank : rankOf d radius with
    | none =>
      dsimp only
      simp only [Option.map_none']
      exact ih ac hac
    | some rank =>
      dsimp only
      simp only [Option.map_some']
      cases hl : lookupCache ac ((db.id, eid) : AddrKey) with
      | some addr =>
        dsimp only
        have haddr := hac db hdb eid addr hl
        obtain ⟨h1, hc1⟩ := ih ac hac
        rw [h1, haddr]
        exact ⟨rfl, hc1⟩
      | none =>
        dsimp only
        have hacNew : acCoherent dbs lang
            (((db.id, eid), db.store.loadAddress eid lang db.origin)
              :: ac) := by
          intro db' hdb' eid' addr' hlook
          rw [lookupCache_cons] at hlook
          by_cases hk : ((db.id, eid) : AddrKey) = (db'.id, eid')
          · rw [if_pos hk] at hlook
            have hid : db.id = db'.id := congrArg Prod.fst hk
            have heid : eid = eid' := congrArg Prod.snd hk
            have hdbeq : db = db' := hdist db hdb db' hdb' hid
            subst hdbeq
            rw [← heid]
            exact (Option.some.inj hlook).symm
          · rw [if_neg hk] at hlook
            exact hac db' hdb' eid' addr' hlook
        obtain ⟨h1, hc1⟩ := ih _ hacNew
        rw [h1]
        exact ⟨rfl, hc1⟩

theorem queryDatabase_spec (ext : ExternalModel) (radius : ℚ)
    (lang : String) (filters : List AddressType) (lng lat : ℚ)
    (dbs : List Database) (db : Database) (ac : AddrCache) (qc : QueryCache)
    (counter : ℕ) (hdb : db ∈ dbs) (hdist : distinctIds dbs)
    (hqc : qcCoherent ext dbs qc) (hac : acCoherent dbs lang ac) :
    (queryDatabase ext radius lang filters lng lat db ac qc counter).1
      = pureResolve db lang radius
          (pureGeometries ext filters db lng lat radius)
    ∧ acCoherent dbs lang
        (queryDatabase ext radius lang filters lng lat db ac qc counter).2.1
    ∧ qcCoherent ext dbs
        (queryDatabase ext radius lang filters lng lat db ac qc
          counter).2.2.1 := by
  unfold queryDatabase
  dsimp only
  obtain ⟨hg, hcq⟩ := findGeometries_spec ext filters dbs db lng lat radius
    qc counter hdb hdist hqc
  rw [hg]
  obtain ⟨hr, hca⟩ := resolveResults_spec dbs db lang radius
    (pureGeometries ext filters db lng lat radius) ac hdb hdist hac
  exact ⟨hr, hca, hcq⟩

theorem processDatabase_spec (ext : ExternalModel) (radius : ℚ)
    (lang : String) (filters : List AddressType) (lng lat : ℚ)
    (dbs : List Database) (db : Database) (ac : AddrCache) (qc : QueryCache)
    (counter prev : ℕ) (hdb : db ∈ dbs) (hdist : distinctIds dbs)
    (hqc : qcCoherent ext dbs qc) (hac : acCoherent dbs lang ac) :
    (processDatabase ext radius lang filters lng lat db ac qc counter
        prev).1
      = pureProcessDatabase ext radius lang filters lng lat db
    ∧ acCoherent dbs lang
        (processDatabase ext radius lang filters lng lat db ac qc counter
          prev).2.1
    ∧ qcCoherent ext dbs
        (processDatabase ext radius lang filters lng lat db ac qc counter
          prev).2.2.1 := by
  unfold processDatabase pureProcessDatabase
  cases hb : db.bounds with
  | some b =>
    dsimp only
    by_cases hskip :
        prefilterSkips b (ext.wgs84Meters (lng, lat)) (lng, lat) radius = true
    · rw [if_pos hskip, if_pos hskip]
      exact ⟨rfl, hac, hqc⟩
    · rw [if_neg hskip, if_neg hskip]
      exact queryDatabase_spec ext radius lang filters lng lat dbs db ac qc
        counter hdb hdist hqc hac
  | none =>
    exact queryDatabase_spec ext radius lang filters lng lat dbs db ac qc
      counter hdb hdist hqc hac

theorem processDatabases_spec (ext : ExternalModel) (radius : ℚ)
    (lang : String) (filters : List AddressType) (lng lat : ℚ)
    (dbs : List Database) (dbs' : List Database)
    (hsub : ∀ db ∈ dbs', db ∈ dbs) (hdist : distinctIds dbs) :
    ∀ (ac : AddrCache) (qc : QueryCache) (counter prev : ℕ),
    qcCoherent ext dbs qc → acCoherent dbs lang ac →
    (processDatabases ext radius lang filters lng lat dbs' ac qc counter
        prev).1
      = pureFindAddresses ext radius lang filters lng lat dbs'
    ∧ acCoherent dbs lang
        (processDatabases ext radius lang filters lng lat dbs' ac qc counter
          prev).2.1
    ∧ qcCoherent ext dbs
        (processDatabases ext radius lang filters lng lat dbs' ac qc counter
          prev).2.2.1 := by
  induction dbs' with
  | nil => intro ac qc counter prev hqc hac; exact ⟨rfl, hac, hqc⟩
  | cons db rest ih =>
    intro ac qc counter prev hqc hac
    simp only [processDatabases, pureFindAddresses, List.map_cons,
      List.flatten_cons]
    obtain ⟨h1, hca1, hcq1⟩ := processDatabase_spec ext radius lang filters
      lng lat dbs db ac qc counter prev (hsub db (List.mem_cons_self _ _))
      hdist hqc hac
    obtain ⟨h2, hca2, hcq2⟩ := ih (fun d hd => hsub d
      (List.mem_cons_of_mem _ hd)) _ _ _ _ hcq1 hca1
    refine ⟨?_, hca2, hcq2⟩
    rw [h1, h2]
    rfl

theorem findAddresses_pure (ext : ExternalModel) (s : GeocState)
    (lng lat : ℚ) (hdist : distinctIds s.databases)
    (hqc : qcCoherent ext s.databases s.queryCache)
    (hac : acCoherent s.databases s.language s.addressCache) :
    (RevGeocoder.findAddresses ext s lng lat).1
      = pureFindAddresses ext s.radius s.language s.enabledFilters lng lat
          s.databases
    ∧ (RevGeocoder.findAddresses ext s lng lat).2.databases = s.databases
    ∧ (RevGeocoder.findAddresses ext s lng lat).2.radius = s.radius
    ∧ (RevGeocoder.findAddresses ext s lng lat).2.language = s.language
    ∧ (RevGeocoder.findAddresses ext s lng lat).2.enabledFilters
        = s.enabledFilters
    ∧ acCoherent s.databases s.language
        (RevGeocoder.findAddresses ext s lng lat).2.addressCache
    ∧ qcCoherent ext s.databases
        (RevGeocoder.findAddresses ext s lng lat).2.queryCache := by
  unfold RevGeocoder.findAddresses
  dsimp only
  obtain ⟨h1, hca, hcq⟩ := processDatabases_spec ext s.radius s.language
    s.enabledFilters lng lat s.databases s.databases (fun _ h => h) hdist
    s.addressCache s.queryCache s.entityQueryCounter
    s.previousEntityQueryCounter hqc hac
  exact ⟨h1, rfl, rfl, rfl, rfl, hca, hcq⟩

/-- C4: cache transparency. Two consecutive `findAddresses` calls with
identical `(lng, lat)` arguments return identical result lists (same
entities, same ranks): the first call's result equals a cache-free pure
function of the configuration — which `findAddresses` does not change — and
the databases, so the second call, running on the post-call state with its
warm (or partially warm, or evicted) caches, produces the same value. The
hypotheses say the starting caches are coherent (every entry equals a fresh
resolution of its key — true of empty caches and preserved by every call)
and that database ids are unique (true of every registry built by `import`'s
sequential ids, by C9). -/
theorem findAddresses_cache_transparent (ext : ExternalModel)
    (s : GeocState) (lng lat : ℚ) (hdist : distinctIds s.databases)
    (hqc : qcCoherent ext s.databases s.queryCache)
    (hac : acCoherent s.databases s.language s.addressCache) :
    (RevGeocoder.findAddresses ext
        ((RevGeocoder.findAddresses ext s lng lat).2) lng lat).1
      = (RevGeocoder.findAddresses ext s lng lat).1 := by
  obtain ⟨h1, hdbs, hrad, hlang, hfil, hca, hcq⟩ :=
    findAddresses_pure ext s lng lat hdist hqc hac
  have hdist' :
      distinctIds (RevGeocoder.findAddresses ext s lng lat).2.databases := by
    rw [hdbs]; exact hdist
  have hqc' : qcCoherent ext
      (RevGeocoder.findAddresses ext s lng lat).2.databases
      (RevGeocoder.findAddresses ext s lng lat).2.queryCache := by
    rw [hdbs]; exact hcq
  have hac' : acCoherent
      (RevGeocoder.findAddresses ext s lng lat).2.databases
      (RevGeocoder.findAddresses ext s lng lat).2.language
      (RevGeocoder.findAddresses ext s lng lat).2.addressCache := by
    rw [hdbs, hlang]; exact hca
  obtain ⟨h2, -, -, -, -, -, -⟩ :=
    findAddresses_pure ext (RevGeocoder.findAddresses ext s lng lat).2 lng
      lat hdist' hqc' hac'
  rw [h1, h2, hdbs, hrad, hlang, hfil]

/-- Witness for C4 at the concrete state `stateEmpty` (no databases, both
caches coherent because empty). -/
theorem findAddresses_cache_transparent_witness :
    distinctIds stateEmpty.databases
    ∧ qcCoherent extTrivial stateEmpty.databases stateEmpty.queryCache
    ∧ acCoherent stateEmpty.databases stateEmpty.language
        stateEmpty.addressCache
    ∧ (RevGeocoder.findAddresses extTrivial
          ((RevGeocoder.findAddresses extTrivial stateEmpty 0 0).2) 0 0).1
        = (RevGeocoder.findAddresses extTrivial stateEmpty 0 0).1 :=
  ⟨fun db1 h1 => absurd h1 (List.not_mem_nil db1),
    fun db h => absurd h (List.not_mem_nil db),
    fun db h => absurd h (List.not_mem_nil db),
    findAddresses_cache_transparent extTrivial stateEmpty 0 0
      (fun db1 h1 => absurd h1 (List.not_mem_nil db1))
      (fun db h => absurd h (List.not_mem_nil db))
      (fun db h => absurd h (List.not_mem_nil db))⟩

end Carto
